import Mathlib

/-!
Verification of the request-boundary security core and cache layer of the
promptexify repository, shallowly embedded in Lean 4.

Sources embedded here:
* `src/lib/security/csp.ts` — CSRF protection, CSP nonce, security headers,
  the `withCSRFProtection` wrapper and `SecureActionError`.
* `src/unnamed/part_007` (the cache module) — `CACHE_TAGS`, `MemoryCache`,
  `createCachedFunction`, `generatePaginationKey`, `generateSearchKey`.
* `src/unnamed/part_008` (post server actions) — the `revalidateCache`
  tag lists passed by each post mutation action.
* `src/lib/query.ts` — the tag registrations of the cached read functions.

Conventions: JavaScript strings are Lean `String`s; machine integers and
`Date.now()` timestamps are `Nat`; `null`/`undefined` are `Option`;
JavaScript objects used as string-keyed records are association lists.
The file lists the definitions of the embedding first and all theorems after.
-/

/-! ## Definitions: the shallow embedding of the source -/


/-- Little-endian decimal digits of `n`, with explicit fuel so that the
definition is structurally recursive and computable by the kernel. -/
def digitsRev : Nat → Nat → List Nat
  | _, 0 => []
  | 0, _ => []
  | f + 1, n => n % 10 :: digitsRev f (n / 10)

/-- Value of a little-endian digit list. -/
def ofDigitsRev : List Nat → Nat
  | [] => 0
  | d :: r => d + 10 * ofDigitsRev r

/-- Decimal rendering of a natural number, modelling JavaScript template
interpolation of a nonnegative integer. -/
def natToString (n : Nat) : String :=
  if n = 0 then "0"
  else String.mk (((digitsRev n n).reverse).map (fun d => Char.ofNat (48 + d)))

/-- Field names of the closed tag enumeration `CACHE_TAGS` of the cache module. -/
structure CacheTagsT where
  POSTS : String
  POST_BY_SLUG : String
  POST_BY_ID : String
  CATEGORIES : String
  TAGS : String
  USER_POSTS : String
  RELATED_POSTS : String
  SEARCH_RESULTS : String
  USER_BOOKMARKS : String
  USER_FAVORITES : String
  POPULAR_POSTS : String
  ANALYTICS : String

/-- `CACHE_TAGS` constant, field for field from the source. -/
def CACHE_TAGS : CacheTagsT :=
  { POSTS := "posts"
    POST_BY_SLUG := "post-by-slug"
    POST_BY_ID := "post-by-id"
    CATEGORIES := "categories"
    TAGS := "tags"
    USER_POSTS := "user-posts"
    RELATED_POSTS := "related-posts"
    SEARCH_RESULTS := "search-results"
    USER_BOOKMARKS := "user-bookmarks"
    USER_FAVORITES := "user-favorites"
    POPULAR_POSTS := "popular-posts"
    ANALYTICS := "analytics" }

/-- The tag list `allTags = [...tags, keyPrefix]` under which
`createCachedFunction(fn, keyPrefix, revalidate, tags, ...)` registers every
cached entry of the wrapped function. -/
def createCachedFunctionTags (tags : List String) (prefixOfKey : String) : List String :=
  tags ++ [prefixOfKey]

/-- Tags registered by `getCachedRelatedPosts` in `src/lib/query.ts`
(`createCachedFunction(memoizedGetRelated, "related-posts", ..., [CACHE_TAGS.RELATED_POSTS])`). -/
def getCachedRelatedPostsTags : List String :=
  createCachedFunctionTags [CACHE_TAGS.RELATED_POSTS] "related-posts"

/-- Tags registered by `getCachedPopularPosts` in `src/lib/query.ts`
(`createCachedFunction(..., "popular-posts", ..., [CACHE_TAGS.POPULAR_POSTS])`). -/
def getCachedPopularPostsTags : List String :=
  createCachedFunctionTags [CACHE_TAGS.POPULAR_POSTS] "popular-posts"

/-- Tag list passed to `revalidateCache` by `createPostAction`. -/
def createPostActionRevalidatedTags : List String :=
  [CACHE_TAGS.POSTS, CACHE_TAGS.POST_BY_SLUG, CACHE_TAGS.POST_BY_ID,
   CACHE_TAGS.CATEGORIES, CACHE_TAGS.TAGS, CACHE_TAGS.SEARCH_RESULTS,
   CACHE_TAGS.USER_POSTS, CACHE_TAGS.ANALYTICS]

/-- Tag list passed to `revalidateCache` by `updatePostAction`. -/
def updatePostActionRevalidatedTags : List String :=
  [CACHE_TAGS.POSTS, CACHE_TAGS.POST_BY_ID, CACHE_TAGS.POST_BY_SLUG,
   CACHE_TAGS.CATEGORIES, CACHE_TAGS.TAGS, CACHE_TAGS.SEARCH_RESULTS,
   CACHE_TAGS.USER_POSTS, CACHE_TAGS.ANALYTICS]

/-- Tag list passed to `revalidateCache` by `approvePostAction`; the source
passes the same eight tags in `rejectPostAction`, `deletePostAction`,
`togglePostPublishAction` and `togglePostFeaturedAction`. -/
def approvePostActionRevalidatedTags : List String :=
  [CACHE_TAGS.POSTS, CACHE_TAGS.POST_BY_ID, CACHE_TAGS.POST_BY_SLUG,
   CACHE_TAGS.CATEGORIES, CACHE_TAGS.TAGS, CACHE_TAGS.SEARCH_RESULTS,
   CACHE_TAGS.USER_POSTS, CACHE_TAGS.ANALYTICS]

def rejectPostActionRevalidatedTags : List String := approvePostActionRevalidatedTags

def deletePostActionRevalidatedTags : List String := approvePostActionRevalidatedTags

def togglePostPublishActionRevalidatedTags : List String := approvePostActionRevalidatedTags

def togglePostFeaturedActionRevalidatedTags : List String := approvePostActionRevalidatedTags

/-- One `MemoryCache` entry: value and absolute expiry time in milliseconds
(`Date.now() + ttl * 1000` at set time). -/
structure MemEntry where
  value : String
  expires : Nat
deriving DecidableEq

/-- The `Map<string, { value, expires }>` contents of a `MemoryCache`, as an
association list with Map lookup semantics (first match wins; `memSet`
updates in place like `Map.prototype.set`). -/
abbrev MemState := List (String × MemEntry)

def memLookup (st : MemState) (key : String) : Option MemEntry :=
  match st with
  | [] => none
  | (k, e) :: rest => if k = key then some e else memLookup rest key

def memDelete (st : MemState) (key : String) : MemState :=
  match st with
  | [] => []
  | (k, e) :: rest => if k = key then memDelete rest key else (k, e) :: memDelete rest key

/-- `MemoryCache.set(key, value, ttl)` at time `now`: stores expiry
`now + ttl * 1000` (the source default `ttl = 300` is supplied by callers
here). -/
def memSet (st : MemState) (key value : String) (ttl now : Nat) : MemState :=
  if (memLookup st key).isSome then
    st.map (fun p => if p.1 = key then (key, ⟨value, now + ttl * 1000⟩) else p)
  else
    st ++ [(key, ⟨value, now + ttl * 1000⟩)]

/-- `MemoryCache.get(key)` at time `now`: returns `null` and deletes the entry
when it is absent or `entry.expires < Date.now()`; otherwise returns the
value. -/
def memGet (st : MemState) (key : String) (now : Nat) : Option String × MemState :=
  match memLookup st key with
  | none => (none, memDelete st key)
  | some e => if e.expires < now then (none, memDelete st key) else (some e.value, st)

/-- `MemoryCache.del(key)`. -/
def memDel (st : MemState) (key : String) : MemState := memDelete st key

/-- A timestamped operation against one `MemoryCache` instance. -/
inductive MemOp where
  | set (key value : String) (ttl : Nat) (now : Nat)
  | get (key : String) (now : Nat)
  | del (key : String)
deriving DecidableEq

/-- Run one operation (a `get` mutates the state when it evicts). -/
def memStep (st : MemState) (op : MemOp) : MemState :=
  match op with
  | .set key value ttl now => memSet st key value ttl now
  | .get key now => (memGet st key now).2
  | .del key => memDel st key

/-- Run a sequence of operations from the empty cache. -/
def memRun (ops : List MemOp) : MemState :=
  ops.foldl memStep []

/-- A JavaScript `string | number | boolean` filter value. -/
inductive JsVal where
  | s (v : String)
  | n (v : Nat)
  | b (v : Bool)
deriving DecidableEq

/-- JavaScript template interpolation of a filter value. -/
def JsVal.render : JsVal → String
  | .s v => v
  | .n v => natToString v
  | .b v => if v then "true" else "false"

/-- Lexicographic comparison of keys by character code, modelling
`a.localeCompare(b)` for the ASCII keys used by the cache layer. -/
def charListLe : List Char → List Char → Bool
  | [], _ => true
  | _ :: _, [] => false
  | a :: as, b :: bs =>
    if a.toNat < b.toNat then true
    else if a.toNat = b.toNat then charListLe as bs
    else false

/-- Insertion sort step for sorting entries by key, modelling
`.sort(([a], [b]) => a.localeCompare(b))`. -/
def insertByKey (p : String × JsVal) : List (String × JsVal) → List (String × JsVal)
  | [] => [p]
  | q :: rest =>
    if charListLe p.1.data q.1.data then p :: q :: rest else q :: insertByKey p rest

def sortByKey : List (String × JsVal) → List (String × JsVal)
  | [] => []
  | p :: rest => insertByKey p (sortByKey rest)

/-- `generatePaginationKey(baseKey, page, limit, additionalParams?)`. -/
def generatePaginationKey (baseKey : String) (page limit : Nat)
    (additionalParams : Option (List (String × JsVal))) : String :=
  let params :=
    match additionalParams with
    | none => ""
    | some ps =>
      String.intercalate "-" ((sortByKey ps).map (fun p => p.1 ++ ":" ++ p.2.render))
  baseKey ++ "-page:" ++ natToString page ++ "-limit:" ++ natToString limit ++
    (if params = "" then "" else "-" ++ params)

/-- Whitespace-run collapsing of `replace(/\\s+/g, "-")`: each maximal run of
whitespace becomes a single "-"; the flag records whether the previous
character was whitespace. -/
def collapseWS (prevWS : Bool) : List Char → List Char
  | [] => []
  | c :: rest =>
    if c.isWhitespace then
      (if prevWS then [] else ['-']) ++ collapseWS true rest
    else c :: collapseWS false rest

/-- `trim()` on the character list. -/
def trimChars (l : List Char) : List Char :=
  (((l.dropWhile Char.isWhitespace).reverse.dropWhile Char.isWhitespace).reverse)

/-- A `\\w` word character or "-", the characters kept by
`replace(/[^\\w-]/g, "")`. -/
def isWordChar (c : Char) : Bool :=
  (('a' ≤ c ∧ c ≤ 'z') ∨ ('A' ≤ c ∧ c ≤ 'Z') ∨ ('0' ≤ c ∧ c ≤ '9') ∨ c = '_' ∨ c = '-')

/-- Query normalization of `generateSearchKey`:
`query.toLowerCase().trim().replace(/\\s+/g, "-").replace(/[^\\w-]/g, "")`. -/
def normalizeQuery (query : String) : String :=
  String.mk ((collapseWS false (trimChars (query.data.map Char.toLower))).filter isWordChar)

/-- `generateSearchKey(query, filters)`: the source drops entries whose value
is `undefined`/`null` (absent here, since `JsVal` always carries a value),
sorts by key, and joins `key:value` pairs with "-". -/
def generateSearchKey (query : String) (filters : List (String × JsVal)) : String :=
  let filterString :=
    String.intercalate "-" ((sortByKey filters).map (fun p => p.1 ++ ":" ++ p.2.render))
  "search-" ++ normalizeQuery query ++
    (if filterString = "" then "" else "-" ++ filterString)

/-- The `next/headers` cookie store, modelled as the three CSRF cookies
(`csrf-token[-secure]`, its `-backup` and `-debug` variants), the
`NODE_ENV === "production"` flag, whether the cookie write in `setToken`
throws, and the token `generateToken` would produce next. -/
structure CookieState where
  primary : Option String
  backup : Option String
  debug : Option String
  isProduction : Bool
  setTokenFails : Bool
  freshToken : String
deriving DecidableEq

/-- JavaScript `x || null` applied to an optional cookie value: the empty
string is falsy and collapses to `null`. -/
def orFalsy : Option String → Option String
  | some s => if s = "" then none else some s
  | none => none

/-- `CSRFProtection.getTokenFromCookie`: primary cookie, then backup, then —
only outside production — the debug cookie; `null` otherwise. -/
def getTokenFromCookie (st : CookieState) : Option String :=
  let token := orFalsy st.primary
  let token := match token with
    | none => orFalsy st.backup
    | some t => some t
  match token with
  | none => if st.isProduction then none else orFalsy st.debug
  | some t => some t

/-- `CSRFProtection.setToken`: writes the primary and backup cookies (and the
debug cookie outside production); `none` models the catch branch where the
cookie write throws. -/
def setToken (token : String) (st : CookieState) : Option CookieState :=
  if st.setTokenFails then none
  else some { st with
    primary := some token
    backup := some token
    debug := if st.isProduction then st.debug else some token }

/-- `CSRFProtection.timingSafeEqual`: HMAC-SHA256 digests of the two inputs
under one fresh key are compared by a branch-free XOR fold. Equal inputs
give equal digests; distinct inputs give distinct digests (HMAC collision
freeness is assumed by the source), so the comparison decides string
equality. -/
def timingSafeEqual (a b : String) : Bool := a == b

/-- `CSRFProtection.validateToken`, returning the result together with the
cookie state left behind (the recovery path writes a fresh token). -/
def validateToken (st : CookieState) (submittedToken : Option String) :
    Bool × CookieState :=
  match submittedToken with
  | none => (false, st)
  | some s =>
    if s = "" then (false, st)
    else
      match getTokenFromCookie st with
      | none =>
        -- recovery: issue a fresh token for future requests, still fail now
        match setToken st.freshToken st with
        | some st2 => (false, st2)
        | none => (false, st)
      | some cookieToken => (timingSafeEqual s cookieToken, st)

/-- An argument of a wrapped server action: either a `FormData` (an ordered
multimap of string fields) or any other value. -/
inductive SArg where
  | fd (entries : List (String × String))
  | other (payload : String)

/-- `formData.get(key)`: first matching field or `null`. -/
def formDataGet : List (String × String) → String → Option String
  | [], _ => none
  | (k, v) :: rest, key => if k = key then some v else formDataGet rest key

/-- `args.find((arg) => arg instanceof FormData)`. -/
def findFormData : List SArg → Option (List (String × String))
  | [] => none
  | .fd f :: _ => some f
  | .other _ :: rest => findFormData rest

/-- `SecureActionError`: message, machine readable code, HTTP status. -/
structure SecureActionErrorS where
  message : String
  code : String
  statusCode : Nat
deriving DecidableEq

/-- Outcome of running a wrapped action body: normal return, a Next.js
redirect (an exception whose digest contains `NEXT_REDIRECT`), a
`SecureActionError`, or any other exception. -/
inductive ActionOutcome (R : Type) where
  | ok (value : R)
  | nextRedirect (digest : String)
  | secureError (e : SecureActionErrorS)
  | otherError (message : String)
deriving DecidableEq

/-- The catch block of `withCSRFProtection`: redirects and
`SecureActionError`s are rethrown unchanged, anything else becomes
`ACTION_ERROR` with status 500. -/
def csrfCatch {R : Type} : ActionOutcome R → ActionOutcome R
  | .ok v => .ok v
  | .nextRedirect d => .nextRedirect d
  | .secureError e => .secureError e
  | .otherError _ => .secureError ⟨"Action failed", "ACTION_ERROR", 500⟩

/-- `withCSRFProtection(action)` applied to `args` in cookie state `st`.
Returns the outcome, whether the underlying action was invoked, and the
cookie state left behind by validation. -/
def withCSRFProtection {R : Type} (action : List SArg → ActionOutcome R)
    (st : CookieState) (args : List SArg) :
    ActionOutcome R × Bool × CookieState :=
  match findFormData args with
  | none =>
    (csrfCatch (ActionOutcome.secureError
      ⟨"CSRF protection requires FormData", "CSRF_NO_FORM_DATA", 400⟩), false, st)
  | some formData =>
    let submittedToken := formDataGet formData "csrf_token"
    let r := validateToken st submittedToken
    if r.1 = false then
      (csrfCatch (ActionOutcome.secureError
        ⟨"Invalid CSRF token", "CSRF_TOKEN_INVALID", 403⟩), false, r.2)
    else
      (csrfCatch (action args), true, r.2)

/-- Base64 sextet stream of a byte list (3 bytes become 4 sextets; the final
1- or 2-byte group contributes the 2 or 3 non-padding digits of `btoa`).
`generateToken` concatenates two dash-stripped `crypto.randomUUID()` values
(64 lowercase-hex ASCII characters), applies `btoa`, maps `+` to `-` and `/`
to `_`, strips the trailing `=` padding, and keeps the first 43 characters;
the padding sits at the end of the 88-character `btoa` output, so the token
is exactly the first 43 base64url digits of the 64 input bytes. -/
def b64Sextets : List Nat → List Nat
  | b0 :: b1 :: b2 :: rest =>
    b0 / 4 :: ((b0 % 4) * 16 + b1 / 16) :: ((b1 % 16) * 4 + b2 / 64) :: b2 % 64 ::
      b64Sextets rest
  | [b0, b1] => [b0 / 4, (b0 % 4) * 16 + b1 / 16, (b1 % 16) * 4]
  | [b0] => [b0 / 4, (b0 % 4) * 16]
  | [] => []

/-- Base64url digit alphabet: `A-Z`, `a-z`, `0-9`, then `-` and `_`
(the images of `+` and `/` under the two replacements). -/
def b64urlChar (n : Nat) : Char :=
  if n < 26 then Char.ofNat (65 + n)
  else if n < 52 then Char.ofNat (97 + (n - 26))
  else if n < 62 then Char.ofNat (48 + (n - 52))
  else if n = 62 then '-'
  else '_'

/-- `CSRFProtection.generateToken`, as a function of the ASCII bytes of the
two dash-stripped UUID hex strings it consumes. -/
def generateToken (uuid1 uuid2 : List Nat) : String :=
  String.mk (((b64Sextets (uuid1 ++ uuid2)).take 43).map b64urlChar)

/-- URL safety of a character in the sense of the spec: base64url alphabet. -/
def isUrlSafeChar (c : Char) : Bool :=
  (('A' ≤ c ∧ c ≤ 'Z') ∨ ('a' ≤ c ∧ c ≤ 'z') ∨ ('0' ≤ c ∧ c ≤ '9') ∨
    c = '-' ∨ c = '_')

/-- All reads of `process.env` by `SecurityHeaders`, threaded through one
explicit record so the header bundle is a function of (environment, nonce)
exactly as the source computes it: the `NODE_ENV === "development"` flag,
`new URL(NEXT_PUBLIC_SUPABASE_URL).origin` when set,
`NEXT_PUBLIC_SANITY_PROJECT_ID`, and the three optional CDN URL variables. -/
structure Env where
  /-- `process.env.NODE_ENV === "development"`. -/
  isDevelopment : Bool
  /-- `new URL(process.env.NEXT_PUBLIC_SUPABASE_URL).origin` when the
  variable is set. -/
  supabaseOrigin : Option String
  /-- `process.env.NEXT_PUBLIC_SANITY_PROJECT_ID`. -/
  sanityProjectId : Option String
  /-- `process.env.NEXT_PUBLIC_CLOUDFRONT_URL`. -/
  cloudfront : Option String
  /-- `process.env.NEXT_PUBLIC_CLOUDFLARE_URL`. -/
  cloudflare : Option String
  /-- `process.env.NEXT_PUBLIC_CDN_URL`. -/
  cdnUrl : Option String
deriving DecidableEq

/-- Result shape of `SecurityHeaders.getExternalDomains`. -/
structure ExternalDomains where
  supabase : String
  sanity : String
  stripe : List String
  cdnCloudfront : Option String
  cdnCloudflare : Option String
  cdnCustom : Option String

/-- `SecurityHeaders.getExternalDomains` (the production/development ternary
for `stripe` returns the same list in both branches, as in the source). -/
def getExternalDomains (env : Env) : ExternalDomains :=
  { supabase :=
      match env.supabaseOrigin with
      | some o => o
      | none => "https://*.supabase.co"
    sanity :=
      match env.sanityProjectId with
      | some pid => "https://" ++ pid ++ ".api.sanity.io"
      | none => "https://*.sanity.io"
    stripe := ["https://js.stripe.com", "https://checkout.stripe.com"]
    cdnCloudfront := env.cloudfront
    cdnCloudflare := env.cloudflare
    cdnCustom := env.cdnUrl }

/-- `cond ? [value] : []` spread used for optional CDN domains. -/
def optSpread : Option String → List String
  | some v => [v]
  | none => []

/-- The statically listed entries of the `scriptSources` array in
`SecurityHeaders.buildScriptSrc`, in source order (including the duplicated
`accounts.google.com`). -/
def staticScriptSources : List String :=
  ["'self'",
   "'sha256-n46vPwSWuMC0W703pBofImv82Z26xo4LXymv0E9caPk='",
   "https://www.googletagmanager.com",
   "https://www.google-analytics.com",
   "https://googleads.g.doubleclick.net",
   "https://www.google.com",
   "https://accounts.google.com",
   "https://apis.google.com",
   "https://accounts.google.com",
   "https://oauth2.googleapis.com",
   "https://www.googleapis.com",
   "https://identitytoolkit.googleapis.com",
   "https://securetoken.googleapis.com",
   "https://js.stripe.com",
   "https://checkout.stripe.com",
   "https://va.vercel-scripts.com"]

/-- The `scriptSources` array of `SecurityHeaders.buildScriptSrc` after all
conditional pushes (development adds the eval keyword source; a nonce adds
its nonce source and the strict-dynamic keyword; otherwise development adds
the inline keyword source). The source guards the nonce with JavaScript
truthiness — `if (nonce)` — so a supplied empty string counts as absent;
`orFalsy` models that collapse, exactly as for the cookie reads. -/
def scriptSources (nonce : Option String) (isDevelopment : Bool) : List String :=
  staticScriptSources ++
  (if isDevelopment then ["'unsafe-eval'"] else []) ++
  (match orFalsy nonce with
   | some v => ["'nonce-" ++ v ++ "'", "'strict-dynamic'"]
   | none => if isDevelopment then ["'unsafe-inline'"] else [])

/-- `SecurityHeaders.buildScriptSrc`. -/
def buildScriptSrc (nonce : Option String) (isDevelopment : Bool) : String :=
  "script-src " ++ String.intercalate " " (scriptSources nonce isDevelopment)

/-- `SecurityHeaders.buildStyleSrc`. -/
def buildStyleSrc : String :=
  "style-src " ++ String.intercalate " "
    ["'self'", "'unsafe-inline'", "https://fonts.googleapis.com",
     "https://checkout.stripe.com", "https://accounts.google.com"]

/-- `SecurityHeaders.buildImgSrc`. -/
def buildImgSrc (env : Env) : String :=
  let domains := getExternalDomains env
  "img-src " ++ String.intercalate " "
    (["'self'", "blob:", "data:", "https:"] ++
     optSpread domains.cdnCloudfront ++
     optSpread domains.cdnCloudflare ++
     optSpread domains.cdnCustom ++
     [domains.supabase,
      "https://*.supabase.co",
      "https://*.googleusercontent.com",
      "https://*.googleapis.com",
      "https://lh3.googleusercontent.com",
      "https://*.amazonaws.com",
      "https://*.s3.amazonaws.com",
      "https://s3.amazonaws.com",
      "https://*.digitaloceanspaces.com",
      "https://*.sanity.io",
      "https://cdn.sanity.io",
      "https://googleads.g.doubleclick.net",
      "https://www.google.com",
      "https://ssl.gstatic.com",
      "https://www.gstatic.com",
      "https://checkout.stripe.com",
      "https://q.stripe.com"])

/-- `SecurityHeaders.buildFontSrc`. -/
def buildFontSrc : String :=
  "font-src " ++ String.intercalate " "
    ["'self'", "https://fonts.gstatic.com", "https://fonts.googleapis.com"]

/-- `domains.supabase.replace("https://", "wss://")`: the origin string starts
with a single occurrence of `https://`. -/
def toWss (s : String) : String := s.replace "https://" "wss://"

/-- `SecurityHeaders.buildConnectSrc`. -/
def buildConnectSrc (env : Env) (isDevelopment : Bool) : String :=
  let domains := getExternalDomains env
  "connect-src " ++ String.intercalate " "
    (["'self'"] ++
     optSpread domains.cdnCloudfront ++
     optSpread domains.cdnCloudflare ++
     optSpread domains.cdnCustom ++
     [domains.supabase, toWss domains.supabase, domains.sanity,
      "https://*.apicdn.sanity.io",
      "https://cdn.sanity.io",
      "https://www.google-analytics.com",
      "https://analytics.google.com",
      "https://www.googletagmanager.com",
      "https://accounts.google.com",
      "https://apis.google.com",
      "https://region1.google-analytics.com",
      "https://www.google.com",
      "https://oauth2.googleapis.com",
      "https://www.googleapis.com",
      "https://identitytoolkit.googleapis.com",
      "https://securetoken.googleapis.com",
      "https://identitytoolkit.googleapis.com",
      "https://api.stripe.com",
      "https://events.stripe.com",
      "https://m.stripe.com"] ++
     domains.stripe ++
     ["https://*.amazonaws.com",
      "https://*.s3.amazonaws.com",
      "https://s3.amazonaws.com",
      "https://*.digitaloceanspaces.com",
      "https://*.redislabs.com",
      "https://*.redis.cloud",
      "https://vitals.vercel-insights.com",
      "https://vitals.vercel-analytics.com"] ++
     (if isDevelopment then
        ["http://localhost:*", "ws://localhost:*", "wss://localhost:*",
         "http://127.0.0.1:*"]
      else []))

/-- `SecurityHeaders.buildFrameSrc`. -/
def buildFrameSrc : String :=
  "frame-src " ++ String.intercalate " "
    ["'self'", "https://accounts.google.com", "https://www.google.com",
     "https://checkout.stripe.com", "https://js.stripe.com",
     "https://googleads.g.doubleclick.net", "https://tpc.googlesyndication.com"]

/-- `SecurityHeaders.generateCSP(nonce?, isDevelopment = false)`. -/
def generateCSP (env : Env) (nonce : Option String) (isDevelopment : Bool) : String :=
  String.intercalate "; "
    (["default-src 'self'",
      buildScriptSrc nonce isDevelopment,
      buildStyleSrc,
      buildImgSrc env,
      buildFontSrc,
      buildConnectSrc env isDevelopment,
      buildFrameSrc,
      "object-src 'none'",
      "base-uri 'self'",
      "form-action 'self'",
      "frame-ancestors 'none'",
      "block-all-mixed-content"] ++
     (if isDevelopment then [] else ["upgrade-insecure-requests"]))

/-- JavaScript object assignment `headers[name] = value`: updates the entry in
place when the key exists, otherwise appends it (insertion order). -/
def setHeader (hs : List (String × String)) (k v : String) : List (String × String) :=
  if hs.any (fun p => p.1 = k) then
    hs.map (fun p => if p.1 = k then (k, v) else p)
  else hs ++ [(k, v)]

/-- `SecurityHeaders.getSecurityHeaders(nonce?)` as the ordered header map it
builds: the base headers, the production-only (or development) adjustments,
and the composed CSP. -/
def getSecurityHeaders (env : Env) (nonce : Option String) : List (String × String) :=
  let isDevelopment := env.isDevelopment
  let base := [("X-Content-Type-Options", "nosniff"),
               ("X-XSS-Protection", "1; mode=block"),
               ("Referrer-Policy", "strict-origin-when-cross-origin"),
               ("X-Frame-Options", "DENY"),
               ("Permissions-Policy", "geolocation=(), microphone=(), camera=()")]
  let hs :=
    if isDevelopment then
      setHeader base "X-Frame-Options" "SAMEORIGIN"
    else
      setHeader (setHeader base "Strict-Transport-Security"
        "max-age=63072000; includeSubDomains; preload") "X-DNS-Prefetch-Control" "off"
  setHeader hs "Content-Security-Policy" (generateCSP env nonce isDevelopment)

/-- ASCII bytes of the dash-stripped hex of a v4-shaped UUID
`00000000-0000-4000-8000-000000000000`. -/
def uuidHexA : List Nat :=
  [48, 48, 48, 48, 48, 48, 48, 48, 48, 48, 48, 48, 52, 48, 48, 48,
   56, 48, 48, 48, 48, 48, 48, 48, 48, 48, 48, 48, 48, 48, 48, 48]

/-- ASCII bytes of the dash-stripped hex of the v4-shaped UUID
`00000000-0000-4000-8000-000000000001`, differing from `uuidHexA` only in
the final hex digit. -/
def uuidHexB : List Nat :=
  [48, 48, 48, 48, 48, 48, 48, 48, 48, 48, 48, 48, 52, 48, 48, 48,
   56, 48, 48, 48, 48, 48, 48, 48, 48, 48, 48, 48, 48, 48, 48, 49]

/-! ## Theorems -/

/-- Induction on a list three elements at a time, mirroring the 3-byte
grouping of base64 encoding. -/
theorem list3Induction {α : Type} {P : List α → Prop} (h0 : P [])
    (h1 : ∀ a, P [a]) (h2 : ∀ a b, P [a, b])
    (h3 : ∀ a b c r, P r → P (a :: b :: c :: r)) : ∀ l, P l
  | [] => h0
  | [a] => h1 a
  | [a, b] => h2 a b
  | a :: b :: c :: r => h3 a b c r (list3Induction h0 h1 h2 h3 r)

/-- Cancellation for `List.map` when the function is injective below a bound
that covers every element of both lists. -/
theorem map_cancel_of_bound_inj {f : Nat → Char} {B : Nat}
    (hf : ∀ a < B, ∀ b < B, f a = f b → a = b) :
    ∀ s t : List Nat, (∀ x ∈ s, x < B) → (∀ x ∈ t, x < B) →
      s.map f = t.map f → s = t := by
  intro s
  induction s with
  | nil => intro t _ _ h; cases t with
    | nil => rfl
    | cons b bs => simp at h
  | cons a as ih =>
    intro t hs ht h
    cases t with
    | nil => simp at h
    | cons b bs =>
      simp only [List.map_cons, List.cons.injEq] at h
      have ha : a = b := hf a (hs a (List.mem_cons_self a as)) b
        (ht b (List.mem_cons_self b bs)) h.1
      have : as = bs := ih bs (fun x hx => hs x (List.mem_cons_of_mem a hx))
        (fun x hx => ht x (List.mem_cons_of_mem b hx)) h.2
      rw [ha, this]

theorem ofDigitsRev_digitsRev : ∀ f n, n ≤ f → ofDigitsRev (digitsRev f n) = n := by
  intro f
  induction f with
  | zero => intro n h; interval_cases n; simp [digitsRev, ofDigitsRev]
  | succ f ih =>
    intro n h
    match n with
    | 0 => simp [digitsRev, ofDigitsRev]
    | m + 1 =>
      have hdiv : (m + 1) / 10 ≤ f := by
        have := Nat.div_lt_self (Nat.succ_pos m) (by norm_num : 1 < 10)
        omega
      simp only [digitsRev, ofDigitsRev, ih _ hdiv]
      omega

theorem digitsRev_lt_ten : ∀ f n, ∀ d ∈ digitsRev f n, d < 10 := by
  intro f
  induction f with
  | zero => intro n d hd; match n with
    | 0 => simp [digitsRev] at hd
    | _ + 1 => simp [digitsRev] at hd
  | succ f ih =>
    intro n d hd
    match n with
    | 0 => simp [digitsRev] at hd
    | m + 1 =>
      simp only [digitsRev, List.mem_cons] at hd
      rcases hd with h | h
      · omega
      · exact ih _ _ h

theorem digitChar_inj : ∀ d < 10, ∀ e < 10,
    Char.ofNat (48 + d) = Char.ofNat (48 + e) → d = e := by decide

theorem digitChar_ne_dash : ∀ d < 10, Char.ofNat (48 + d) ≠ '-' := by decide

theorem natToString_chars_ne_dash (n : Nat) : ∀ c ∈ (natToString n).data, c ≠ '-' := by
  unfold natToString
  split
  · intro c hc; simp [String.data] at hc; subst hc; decide
  · intro c hc
    simp only [String.data, List.mem_map, List.mem_reverse] at hc
    obtain ⟨d, hd, rfl⟩ := hc
    exact digitChar_ne_dash d (digitsRev_lt_ten n n d hd)

theorem natToString_eq_zero (n : Nat) (h : natToString n = "0") : n = 0 := by
  by_contra hn
  unfold natToString at h
  rw [if_neg hn] at h
  have hdata : ((digitsRev n n).reverse).map (fun d => Char.ofNat (48 + d)) = ['0'] :=
    congrArg String.data h
  obtain ⟨l0, hl0, hmap⟩ : ∃ l0, (digitsRev n n).reverse = [l0] ∧
      Char.ofNat (48 + l0) = '0' := by
    cases hl : (digitsRev n n).reverse with
    | nil => rw [hl] at hdata; simp at hdata
    | cons d r =>
      rw [hl] at hdata
      simp only [List.map_cons, List.cons.injEq] at hdata
      have : r = [] := by
        cases r with
        | nil => rfl
        | cons x xs => simp at hdata
      exact ⟨d, by rw [this], hdata.1⟩
  have hd10 : l0 < 10 := digitsRev_lt_ten n n l0 (by
    rw [← List.mem_reverse, hl0]; exact List.mem_cons_self l0 [])
  have hd0 : l0 = 0 := by
    have : Char.ofNat (48 + l0) = Char.ofNat (48 + 0) := by simpa using hmap
    exact digitChar_inj l0 hd10 0 (by norm_num) this
  have hsing : digitsRev n n = [l0] := by
    have := congrArg List.reverse hl0
    simpa using this
  have := congrArg ofDigitsRev hsing
  rw [ofDigitsRev_digitsRev n n le_rfl] at this
  simp [ofDigitsRev, hd0] at this
  exact hn this

theorem natToString_inj : ∀ m n : Nat, natToString m = natToString n → m = n := by
  have key : ∀ m n : Nat, m ≠ 0 → n ≠ 0 → natToString m = natToString n → m = n := by
    intro m n hm hn h
    unfold natToString at h
    rw [if_neg hm, if_neg hn] at h
    have hdata : ((digitsRev m m).reverse).map (fun d => Char.ofNat (48 + d)) =
        ((digitsRev n n).reverse).map (fun d => Char.ofNat (48 + d)) :=
      congrArg String.data h
    have hrev : digitsRev m m = digitsRev n n := by
      have : (digitsRev m m).reverse = (digitsRev n n).reverse := by
        refine map_cancel_of_bound_inj digitChar_inj _ _ ?_ ?_ hdata
        · intro x hx; exact digitsRev_lt_ten m m x (List.mem_reverse.mp hx)
        · intro x hx; exact digitsRev_lt_ten n n x (List.mem_reverse.mp hx)
      exact List.reverse_injective this
    have := congrArg ofDigitsRev hrev
    rwa [ofDigitsRev_digitsRev m m le_rfl, ofDigitsRev_digitsRev n n le_rfl] at this
  intro m n h
  by_cases hm : m = 0 <;> by_cases hn : n = 0
  · omega
  · subst hm
    have : natToString n = "0" := by
      rw [← h]; unfold natToString; rw [if_pos rfl]
    exact (natToString_eq_zero n this).symm
  · subst hn
    have : natToString m = "0" := by
      rw [h]; unfold natToString; rw [if_pos rfl]
    exact natToString_eq_zero m this
  · exact key m n hm hn h

/-- C1: for every non-empty submitted token, when no stored CSRF token exists
in any cookie, `CSRFProtection.validateToken` returns false — both when the
recovery issuance of a fresh token succeeds and when it fails — so token
recovery never causes the current request to pass validation. -/
theorem validateToken_no_stored_token_fails (st : CookieState) (sub : String)
    (fails : Bool) (hsub : sub ≠ "")
    (hcookie : getTokenFromCookie { st with setTokenFails := fails } = none) :
    (validateToken { st with setTokenFails := fails } (some sub)).1 = false := by
  simp only [validateToken, if_neg hsub, hcookie]
  cases h : setToken { st with setTokenFails := fails }.freshToken
      { st with setTokenFails := fails } <;> simp [h]

/-- Witness for C1 at a concrete state, with both recovery outcomes. -/
theorem validateToken_no_stored_token_fails_witness :
    ("x" ≠ "" ∧
      getTokenFromCookie ⟨none, none, none, true, false, "f"⟩ = none ∧
      getTokenFromCookie ⟨none, none, none, true, true, "f"⟩ = none) ∧
    (validateToken ⟨none, none, none, true, false, "f"⟩ (some "x")).1 = false ∧
    (validateToken ⟨none, none, none, true, true, "f"⟩ (some "x")).1 = false :=
  ⟨⟨by decide, by decide, by decide⟩,
    validateToken_no_stored_token_fails ⟨none, none, none, true, false, "f"⟩ "x"
      false (by decide) (by decide),
    validateToken_no_stored_token_fails ⟨none, none, none, true, true, "f"⟩ "x"
      true (by decide) (by decide)⟩

/-- C3 (evaluation of the divergence): the aggregate tags `related-posts` and
`popular-posts` are registered by the cached read functions
`getCachedRelatedPosts` / `getCachedPopularPosts`, yet none of the post
mutation actions passes either tag to `revalidateCache`, so those cached
aggregates are never invalidated by post mutations. -/
theorem postMutation_omits_aggregate_tags :
    (CACHE_TAGS.POPULAR_POSTS ∈ getCachedPopularPostsTags ∧
     CACHE_TAGS.RELATED_POSTS ∈ getCachedRelatedPostsTags) ∧
    (CACHE_TAGS.POPULAR_POSTS ∉ createPostActionRevalidatedTags ∧
     CACHE_TAGS.POPULAR_POSTS ∉ updatePostActionRevalidatedTags ∧
     CACHE_TAGS.POPULAR_POSTS ∉ approvePostActionRevalidatedTags ∧
     CACHE_TAGS.POPULAR_POSTS ∉ rejectPostActionRevalidatedTags ∧
     CACHE_TAGS.POPULAR_POSTS ∉ deletePostActionRevalidatedTags ∧
     CACHE_TAGS.POPULAR_POSTS ∉ togglePostPublishActionRevalidatedTags ∧
     CACHE_TAGS.POPULAR_POSTS ∉ togglePostFeaturedActionRevalidatedTags) ∧
    (CACHE_TAGS.RELATED_POSTS ∉ createPostActionRevalidatedTags ∧
     CACHE_TAGS.RELATED_POSTS ∉ updatePostActionRevalidatedTags ∧
     CACHE_TAGS.RELATED_POSTS ∉ approvePostActionRevalidatedTags ∧
     CACHE_TAGS.RELATED_POSTS ∉ rejectPostActionRevalidatedTags ∧
     CACHE_TAGS.RELATED_POSTS ∉ deletePostActionRevalidatedTags ∧
     CACHE_TAGS.RELATED_POSTS ∉ togglePostPublishActionRevalidatedTags ∧
     CACHE_TAGS.RELATED_POSTS ∉ togglePostFeaturedActionRevalidatedTags) := by
  decide

/-- C4: the security header bundle and the CSP string are deterministic
functions of (environment, nonce): two calls of
`SecurityHeaders.getSecurityHeaders` (and of `SecurityHeaders.generateCSP`)
with identical arguments and identical environment variables return
identical header maps and CSP strings; no other source of randomness
enters. -/
theorem securityHeaders_deterministic (e1 e2 : Env) (n1 n2 : Option String)
    (henv : e1 = e2) (hn : n1 = n2) :
    getSecurityHeaders e1 n1 = getSecurityHeaders e2 n2 ∧
    ∀ d1 d2 : Bool, d1 = d2 → generateCSP e1 n1 d1 = generateCSP e2 n2 d2 := by
  subst henv
  subst hn
  exact ⟨rfl, fun d1 d2 h => by rw [h]⟩

/-- Witness for C4 at a concrete environment and nonce. -/
theorem securityHeaders_deterministic_witness :
    getSecurityHeaders ⟨false, none, none, none, none, none⟩ (some "abc") =
      getSecurityHeaders ⟨false, none, none, none, none, none⟩ (some "abc") ∧
    generateCSP ⟨false, none, none, none, none, none⟩ (some "abc") false =
      generateCSP ⟨false, none, none, none, none, none⟩ (some "abc") false :=
  ⟨(securityHeaders_deterministic _ _ _ _ rfl rfl).1,
   (securityHeaders_deterministic ⟨false, none, none, none, none, none⟩ _
      (some "abc") _ rfl rfl).2 false false rfl⟩

/-- C7 (counterexample): in development, with the primary and backup CSRF
cookies both absent but the debug cookie set, `getTokenFromCookie` returns
the debug value rather than null. -/
theorem getTokenFromCookie_not_null_counterexample :
    (CookieState.mk none none (some "t") false false "f").primary = none ∧
    (CookieState.mk none none (some "t") false false "f").backup = none ∧
    getTokenFromCookie (CookieState.mk none none (some "t") false false "f") ≠ none := by
  decide

/-- C7 (amended): `getTokenFromCookie` returns the primary cookie value when
it is present and non-empty; otherwise the backup cookie value when present
and non-empty; otherwise, outside production, the debug cookie value under
the same rule; and null when every applicable cookie is absent or empty. -/
theorem getTokenFromCookie_spec (st : CookieState) :
    (∀ v, st.primary = some v → v ≠ "" → getTokenFromCookie st = some v) ∧
    (orFalsy st.primary = none →
      ∀ v, st.backup = some v → v ≠ "" → getTokenFromCookie st = some v) ∧
    (orFalsy st.primary = none → orFalsy st.backup = none →
      st.isProduction = true → getTokenFromCookie st = none) ∧
    (orFalsy st.primary = none → orFalsy st.backup = none →
      st.isProduction = false →
      ∀ v, st.debug = some v → v ≠ "" → getTokenFromCookie st = some v) ∧
    (orFalsy st.primary = none → orFalsy st.backup = none →
      st.isProduction = false → orFalsy st.debug = none →
      getTokenFromCookie st = none) := by
  refine ⟨?_, ?_, ?_, ?_, ?_⟩
  · intro v hv hne
    simp [getTokenFromCookie, orFalsy, hv, hne]
  · intro hp v hv hne
    have hb : orFalsy st.backup = some v := by simp [orFalsy, hv, hne]
    simp [getTokenFromCookie, hp, hb]
  · intro hp hb hprod
    simp [getTokenFromCookie, hp, hb, hprod]
  · intro hp hb hprod v hv hne
    have hd : orFalsy st.debug = some v := by simp [orFalsy, hv, hne]
    simp [getTokenFromCookie, hp, hb, hprod, hd]
  · intro hp hb hprod hd
    simp [getTokenFromCookie, hp, hb, hprod, hd]

/-- Witness for the amended C7 characterization at concrete cookie states. -/
theorem getTokenFromCookie_spec_witness :
    getTokenFromCookie (CookieState.mk (some "p") (some "b") none true false "f") =
      some "p" ∧
    getTokenFromCookie (CookieState.mk none (some "b") none true false "f") =
      some "b" ∧
    getTokenFromCookie (CookieState.mk none none (some "d") true false "f") = none :=
  ⟨(getTokenFromCookie_spec _).1 "p" rfl (by decide),
   (getTokenFromCookie_spec _).2.1 (by decide) "b" rfl (by decide),
   (getTokenFromCookie_spec _).2.2.1 (by decide) (by decide) rfl⟩

theorem memLookup_delete (st : MemState) (k key : String) :
    memLookup (memDelete st k) key = if k = key then none else memLookup st key := by
  induction st with
  | nil => simp [memDelete, memLookup]
  | cons p rest ih =>
    obtain ⟨k0, e0⟩ := p
    by_cases h0 : k0 = k
    · subst h0
      simp only [memDelete, if_pos rfl]
      by_cases hk : k0 = key
      · subst hk; simp [memLookup, ih]
      · simp [memLookup, hk, ih]
    · simp only [memDelete, if_neg h0]
      by_cases hk : k0 = key
      · subst hk
        have : ¬ (k = k0) := fun h => h0 h.symm
        simp [memLookup, this]
      · simp [memLookup, hk, ih]

theorem memLookup_map_set (st : MemState) (k v : String) (ttl now : Nat)
    (key : String) (e : MemEntry)
    (h : memLookup
      (st.map (fun p => if p.1 = k then (k, ⟨v, now + ttl * 1000⟩) else p)) key =
        some e) :
    memLookup st key = some e ∨ (key = k ∧ e = ⟨v, now + ttl * 1000⟩) := by
  induction st with
  | nil => simp [memLookup] at h
  | cons p rest ih =>
    obtain ⟨k0, e0⟩ := p
    by_cases h0 : k0 = k
    · subst h0
      simp only [List.map_cons, if_pos rfl] at h
      by_cases hk : k0 = key
      · subst hk
        simp only [memLookup, if_pos rfl] at h ⊢
        exact Or.inr ⟨by simp, (Option.some_inj.mp h).symm⟩
      · have : ¬ (k0 = key) := hk
        simp only [memLookup, if_neg this] at h ⊢
        exact ih h
    · simp only [List.map_cons, if_neg h0] at h
      by_cases hk : k0 = key
      · subst hk
        simp only [memLookup, if_pos rfl] at h ⊢
        exact Or.inl h
      · simp only [memLookup, if_neg hk] at h ⊢
        exact ih h

theorem memLookup_append_one (st : MemState) (p : String × MemEntry)
    (key : String) (e : MemEntry)
    (h : memLookup (st ++ [p]) key = some e) :
    memLookup st key = some e ∨ (p.1 = key ∧ e = p.2) := by
  induction st with
  | nil =>
    simp only [List.nil_append, memLookup] at h
    by_cases hk : p.1 = key
    · rw [if_pos hk] at h
      exact Or.inr ⟨hk, (Option.some_inj.mp h).symm⟩
    · rw [if_neg hk] at h
      exact absurd h (by simp)
  | cons q rest ih =>
    obtain ⟨k0, e0⟩ := q
    by_cases hk : k0 = key
    · simp only [List.cons_append, memLookup, if_pos hk] at h ⊢
      exact Or.inl h
    · simp only [List.cons_append, memLookup, if_neg hk] at h ⊢
      exact ih h

theorem memStep_lookup (st : MemState) (op : MemOp) (key : String) (e : MemEntry)
    (h : memLookup (memStep st op) key = some e) :
    memLookup st key = some e ∨
      ∃ v ttl t0, op = MemOp.set key v ttl t0 ∧ e = ⟨v, t0 + ttl * 1000⟩ := by
  cases op with
  | set k v ttl now =>
    simp only [memStep, memSet] at h
    by_cases hs : (memLookup st k).isSome
    · rw [if_pos hs] at h
      rcases memLookup_map_set st k v ttl now key e h with h1 | ⟨rfl, rfl⟩
      · exact Or.inl h1
      · exact Or.inr ⟨v, ttl, now, rfl, rfl⟩
    · rw [if_neg hs] at h
      rcases memLookup_append_one st (k, ⟨v, now + ttl * 1000⟩) key e h with h1 | ⟨hk, rfl⟩
      · exact Or.inl h1
      · subst hk
        exact Or.inr ⟨v, ttl, now, rfl, rfl⟩
  | get k now =>
    simp only [memStep, memGet] at h
    split at h
    · rw [memLookup_delete] at h
      by_cases hk : k = key
      · rw [if_pos hk] at h; exact absurd h (by simp)
      · rw [if_neg hk] at h; exact Or.inl h
    · split at h
      · rw [memLookup_delete] at h
        by_cases hk : k = key
        · rw [if_pos hk] at h; exact absurd h (by simp)
        · rw [if_neg hk] at h; exact Or.inl h
      · exact Or.inl h
  | del k =>
    simp only [memStep, memDel] at h
    rw [memLookup_delete] at h
    by_cases hk : k = key
    · rw [if_pos hk] at h; exact absurd h (by simp)
    · rw [if_neg hk] at h; exact Or.inl h

theorem memFoldl_lookup : ∀ (ops : List MemOp) (st : MemState) (key : String)
    (e : MemEntry),
    memLookup (ops.foldl memStep st) key = some e →
    memLookup st key = some e ∨
      ∃ v ttl t0, MemOp.set key v ttl t0 ∈ ops ∧ e = ⟨v, t0 + ttl * 1000⟩ := by
  intro ops
  induction ops with
  | nil => intro st key e h; exact Or.inl h
  | cons op rest ih =>
    intro st key e h
    simp only [List.foldl_cons] at h
    rcases ih _ _ _ h with h1 | ⟨v, ttl, t0, hm, he⟩
    · rcases memStep_lookup st op key e h1 with h2 | ⟨v, ttl, t0, rfl, he⟩
      · exact Or.inl h2
      · exact Or.inr ⟨v, ttl, t0, List.mem_cons_self _ _, he⟩
    · exact Or.inr ⟨v, ttl, t0, List.mem_cons_of_mem _ hm, he⟩

/-- C10 (counterexample): after `set("k", "v", ttl 1s)` at time 0 the entry
expiry is 1000; a `get` at exactly time 1000 — not strictly before the
expiry — still returns the value. -/
theorem memGet_at_expiry_counterexample :
    (memGet (memRun [MemOp.set "k" "v" 1 0]) "k" 1000).1 = some "v" ∧
    ¬ (1000 < 0 + 1 * 1000) := by
  decide

/-- C10 (amended): `MemoryCache.get(key)` returns a value only if some
`set(key, value, ttl)` occurred and the current time is at most that entry
stored expiry (set time plus `ttl * 1000`, inclusive); once the expiry has
strictly passed, `get` returns null and removes the entry. -/
theorem memoryCache_get_spec (ops : List MemOp) (key v : String) (now : Nat) :
    ((memGet (memRun ops) key now).1 = some v →
      ∃ ttl t0, MemOp.set key v ttl t0 ∈ ops ∧ now ≤ t0 + ttl * 1000) ∧
    (∀ e, memLookup (memRun ops) key = some e → e.expires < now →
      (memGet (memRun ops) key now).1 = none ∧
      memLookup (memGet (memRun ops) key now).2 key = none) := by
  constructor
  · intro h
    unfold memGet at h
    split at h
    · simp at h
    · next e hl =>
      split at h
      · simp at h
      · next hexp =>
        simp only [Option.some.injEq] at h
        rcases memFoldl_lookup ops [] key e hl with h1 | ⟨v0, ttl, t0, hm, he⟩
        · simp [memLookup] at h1
        · refine ⟨ttl, t0, ?_, ?_⟩
          · have hv : v = v0 := by rw [← h, he]
            rw [hv]
            exact hm
          · rw [he] at hexp
            simp only [not_lt] at hexp
            exact hexp
  · intro e hl hexp
    have h1 : memGet (memRun ops) key now = (none, memDelete (memRun ops) key) := by
      unfold memGet
      rw [hl]
      exact if_pos hexp
    rw [h1]
    exact ⟨rfl, by rw [memLookup_delete, if_pos rfl]⟩

/-- Witness for the amended C10 theorem on a concrete trace. -/
theorem memoryCache_get_spec_witness :
    (memGet (memRun [MemOp.set "k" "v" 1 0]) "k" 500).1 = some "v" ∧
    ∃ ttl t0, MemOp.set "k" "v" ttl t0 ∈ [MemOp.set "k" "v" 1 0] ∧
      500 ≤ t0 + ttl * 1000 :=
  ⟨by decide,
   (memoryCache_get_spec [MemOp.set "k" "v" 1 0] "k" "v" 500).1 (by decide)⟩

theorem str_data_append (s t : String) : (s ++ t).data = s.data ++ t.data := by
  cases s
  cases t
  rfl

theorem str_ext (s t : String) (h : s.data = t.data) : s = t := by
  cases s
  cases t
  exact congrArg String.mk h

/-- Unique decomposition at the first separator: when neither side of the
first "-" contains "-", equality of the joined lists forces both components
to agree. -/
theorem splitOnSep : ∀ (p q s t : List Char), (∀ c ∈ p, c ≠ '-') →
    (∀ c ∈ q, c ≠ '-') → p ++ '-' :: s = q ++ '-' :: t → p = q ∧ s = t := by
  intro p
  induction p with
  | nil =>
    intro q s t _ hq h
    cases q with
    | nil => simpa using h
    | cons c r =>
      simp only [List.nil_append, List.cons_append, List.cons.injEq] at h
      exact absurd h.1.symm (hq c (List.mem_cons_self c r))
  | cons a p ih =>
    intro q s t hp hq h
    cases q with
    | nil =>
      simp only [List.nil_append, List.cons_append, List.cons.injEq] at h
      exact absurd h.1 (hp a (List.mem_cons_self a p))
    | cons b r =>
      simp only [List.cons_append, List.cons.injEq] at h
      obtain ⟨h1, h2⟩ := h
      obtain ⟨hpq, hst⟩ := ih r s t
        (fun c hc => hp c (List.mem_cons_of_mem a hc))
        (fun c hc => hq c (List.mem_cons_of_mem b hc)) h2
      exact ⟨by rw [h1, hpq], hst⟩

/-- C6 (counterexample): two logically different filter sets — a single filter
whose string value contains the "-" and ":" delimiters versus two separate
filters — collide on the same pagination key and the same search key. -/
theorem cacheKey_collision_counterexample :
    generatePaginationKey "posts" 1 10 (some [("a", JsVal.s "x-b:y")]) =
      generatePaginationKey "posts" 1 10 (some [("a", JsVal.s "x"), ("b", JsVal.s "y")]) ∧
    generateSearchKey "q" [("a", JsVal.s "x-b:y")] =
      generateSearchKey "q" [("a", JsVal.s "x"), ("b", JsVal.s "y")] ∧
    [("a", JsVal.s "x-b:y")] ≠ [("a", JsVal.s "x"), ("b", JsVal.s "y")] := by
  decide

/-- C6 (amended): the keys are not injective on all logically distinct
queries — filter values containing the "-"/":" delimiters collide — but the
numeric pagination parameters are always faithfully separated: for a fixed
base key and no additional parameters, `generatePaginationKey` is injective
in the (page, limit) pair. -/
theorem generatePaginationKey_inj_page_limit (b : String) (p l p2 l2 : Nat)
    (h : generatePaginationKey b p l none = generatePaginationKey b p2 l2 none) :
    p = p2 ∧ l = l2 := by
  have h2 : b ++ "-page:" ++ natToString p ++ "-limit:" ++ natToString l ++ "" =
      b ++ "-page:" ++ natToString p2 ++ "-limit:" ++ natToString l2 ++ "" := h
  have hd := congrArg String.data h2
  simp only [str_data_append, List.append_assoc, List.cons_append, List.nil_append,
    List.append_nil] at hd
  have h3 := List.append_cancel_left hd
  simp only [List.cons.injEq, true_and] at h3
  obtain ⟨hP, hS⟩ := splitOnSep _ _ _ _
    (natToString_chars_ne_dash p) (natToString_chars_ne_dash p2) h3
  simp only [List.cons.injEq, true_and] at hS
  exact ⟨natToString_inj p p2 (str_ext _ _ hP),
         natToString_inj l l2 (str_ext _ _ hS)⟩

/-- Witness for the amended C6 injectivity at concrete pagination parameters. -/
theorem generatePaginationKey_inj_page_limit_witness :
    generatePaginationKey "posts" 3 41 none = generatePaginationKey "posts" 3 41 none ∧
    (3 = 3 ∧ 41 = 41) :=
  ⟨rfl, generatePaginationKey_inj_page_limit "posts" 3 41 3 41 rfl⟩

/-- C8: the function returned by `withCSRFProtection` invokes the underlying
action exactly when a FormData argument is present and its `csrf_token`
passes `CSRFProtection.validateToken`; with no FormData it throws
`SecureActionError` code `CSRF_NO_FORM_DATA` with status 400, and on failed
validation it throws code `CSRF_TOKEN_INVALID` with status 403 — in both
cases without executing the underlying action. -/
theorem withCSRFProtection_spec {R : Type} (action : List SArg → ActionOutcome R)
    (st : CookieState) (args : List SArg) :
    (findFormData args = none →
      (withCSRFProtection action st args).1 = ActionOutcome.secureError
          ⟨"CSRF protection requires FormData", "CSRF_NO_FORM_DATA", 400⟩ ∧
      (withCSRFProtection action st args).2.1 = false) ∧
    (∀ f, findFormData args = some f →
      (validateToken st (formDataGet f "csrf_token")).1 = false →
      (withCSRFProtection action st args).1 = ActionOutcome.secureError
          ⟨"Invalid CSRF token", "CSRF_TOKEN_INVALID", 403⟩ ∧
      (withCSRFProtection action st args).2.1 = false) ∧
    ((withCSRFProtection action st args).2.1 = true ↔
      ∃ f, findFormData args = some f ∧
        (validateToken st (formDataGet f "csrf_token")).1 = true) := by
  refine ⟨?_, ?_, ?_⟩
  · intro hf
    simp [withCSRFProtection, hf, csrfCatch]
  · intro f hf hv
    simp [withCSRFProtection, hf, hv, csrfCatch]
  · constructor
    · intro h
      cases hf : findFormData args with
      | none => simp [withCSRFProtection, hf, csrfCatch] at h
      | some f =>
        refine ⟨f, rfl, ?_⟩
        cases hv : (validateToken st (formDataGet f "csrf_token")).1 with
        | false => simp [withCSRFProtection, hf, hv, csrfCatch] at h
        | true => rfl
    · rintro ⟨f, hf, hv⟩
      simp [withCSRFProtection, hf, hv, csrfCatch]

/-- Witness for C8 on concrete argument lists: no FormData, a failing token,
and a passing token. -/
theorem withCSRFProtection_spec_witness :
    ((withCSRFProtection (fun _ => ActionOutcome.ok 0)
        (CookieState.mk (some "t") none none true false "f")
        [SArg.other "x"]).1 = ActionOutcome.secureError
          ⟨"CSRF protection requires FormData", "CSRF_NO_FORM_DATA", 400⟩ ∧
     (withCSRFProtection (fun _ => ActionOutcome.ok 0)
        (CookieState.mk (some "t") none none true false "f")
        [SArg.other "x"]).2.1 = false) ∧
    ((withCSRFProtection (fun _ => ActionOutcome.ok 0)
        (CookieState.mk (some "t") none none true false "f")
        [SArg.fd [("csrf_token", "wrong")]]).1 = ActionOutcome.secureError
          ⟨"Invalid CSRF token", "CSRF_TOKEN_INVALID", 403⟩ ∧
     (withCSRFProtection (fun _ => ActionOutcome.ok 0)
        (CookieState.mk (some "t") none none true false "f")
        [SArg.fd [("csrf_token", "wrong")]]).2.1 = false) ∧
    (withCSRFProtection (fun _ => ActionOutcome.ok 0)
        (CookieState.mk (some "t") none none true false "f")
        [SArg.fd [("csrf_token", "t")]]).2.1 = true :=
  ⟨(withCSRFProtection_spec (fun _ => ActionOutcome.ok 0)
      (CookieState.mk (some "t") none none true false "f") [SArg.other "x"]).1 rfl,
   (withCSRFProtection_spec (fun _ => ActionOutcome.ok 0)
      (CookieState.mk (some "t") none none true false "f")
      [SArg.fd [("csrf_token", "wrong")]]).2.1 [("csrf_token", "wrong")] rfl (by decide),
   ((withCSRFProtection_spec (fun _ => ActionOutcome.ok 0)
      (CookieState.mk (some "t") none none true false "f")
      [SArg.fd [("csrf_token", "t")]]).2.2).mpr
     ⟨[("csrf_token", "t")], rfl, by decide⟩⟩

/-- The first two characters of a nonce source entry. -/
theorem nonce_take2 (v : String) :
    (("'nonce-" ++ v ++ "'" : String)).data.take 2 = ['\'', 'n'] := by
  cases v
  rfl

/-- A list whose entries all fail the two-character test contains no
nonce entry. -/
theorem no_nonce_elem (v : String) (L : List String)
    (hL : ∀ t ∈ L, t.data.take 2 ≠ ['\'', 'n']) :
    ("'nonce-" ++ v ++ "'" : String) ∉ L := by
  intro hmem
  exact hL _ hmem (nonce_take2 v)

/-- A string whose first two characters differ from a nonce entry prefix is
never the nonce entry. -/
theorem nonce_elem_ne (v t : String) (ht : t.data.take 2 ≠ ['\'', 'n']) :
    ("'nonce-" ++ v ++ "'" : String) ≠ t := by
  intro h
  have h2 := nonce_take2 v
  rw [h] at h2
  exact ht h2

/-- The nonce value can be read back from its source entry. -/
theorem nonce_elem_inj (v w : String)
    (h : ("'nonce-" ++ v ++ "'" : String) = "'nonce-" ++ w ++ "'") : v = w := by
  have hd := congrArg String.data h
  rw [str_data_append, str_data_append, str_data_append, str_data_append] at hd
  have h1 := List.append_cancel_right hd
  have h2 := List.append_cancel_left h1
  exact str_ext _ _ h2

/-- The static script source list contains no nonce entry. -/
theorem nonce_not_in_static (v : String) :
    ("'nonce-" ++ v ++ "'" : String) ∉ staticScriptSources := by
  intro h3
  simp only [staticScriptSources, List.mem_cons, List.not_mem_nil, or_false] at h3
  rcases h3 with h | h | h | h | h | h | h | h | h | h | h | h | h | h | h | h <;>
    exact nonce_elem_ne v _ (by decide) h

/-- C5 (counterexample): at a supplied but empty nonce — falsy in
JavaScript, so treated as absent by the source's `if (nonce)` guard — the
development directive gains no nonce entry and no strict-dynamic keyword and
still appends unsafe-inline, refuting "exactly when a nonce is supplied". -/
theorem buildScriptSrc_empty_nonce_counterexample :
    some "" ≠ (none : Option String) ∧
    "'strict-dynamic'" ∉ scriptSources (some "") true ∧
    ("'nonce-" ++ "" ++ "'" : String) ∉ scriptSources (some "") true ∧
    "'unsafe-inline'" ∈ scriptSources (some "") true := by
  decide

/-- C5 (amended): the script-src directive built by
`SecurityHeaders.buildScriptSrc` is the join of its `scriptSources` list;
that list always contains the self keyword source; it contains the nonce
source and strict-dynamic exactly when a non-empty (truthy) nonce is
supplied, in any environment; it contains unsafe-inline exactly when no
non-empty nonce is supplied and the environment is development (so never in
production); and it contains unsafe-eval exactly when the environment is
development. -/
theorem buildScriptSrc_spec (nonce : Option String) (dev : Bool) :
    buildScriptSrc nonce dev =
      "script-src " ++ String.intercalate " " (scriptSources nonce dev) ∧
    "'self'" ∈ scriptSources nonce dev ∧
    (("'strict-dynamic'" ∈ scriptSources nonce dev) ↔ orFalsy nonce ≠ none) ∧
    (∀ v, orFalsy nonce = some v →
      ("'nonce-" ++ v ++ "'") ∈ scriptSources nonce dev) ∧
    (∀ v, ("'nonce-" ++ v ++ "'") ∈ scriptSources nonce dev →
      orFalsy nonce = some v) ∧
    (("'unsafe-inline'" ∈ scriptSources nonce dev) ↔
      (orFalsy nonce = none ∧ dev = true)) ∧
    (("'unsafe-eval'" ∈ scriptSources nonce dev) ↔ dev = true) := by
  rcases hof : orFalsy nonce with _ | w
  · have hss : scriptSources nonce dev = staticScriptSources ++
        (if dev then ["'unsafe-eval'"] else []) ++
        (if dev then ["'unsafe-inline'"] else []) := by
      unfold scriptSources
      rw [hof]
    refine ⟨rfl, ?_, ?_, ?_, ?_, ?_, ?_⟩
    · rw [hss]
      exact List.mem_append.mpr (Or.inl (List.mem_append.mpr (Or.inl (by decide))))
    · rw [hss]
      cases dev <;> decide
    · intro v hv
      exact Option.noConfusion hv
    · intro v hv
      exfalso
      rw [hss] at hv
      rcases List.mem_append.mp hv with h1 | h2
      · rcases List.mem_append.mp h1 with h3 | h4
        · exact nonce_not_in_static v h3
        · cases dev with
          | false => simp at h4
          | true =>
            have h5 : ("'nonce-" ++ v ++ "'" : String) = "'unsafe-eval'" := by
              simpa using h4
            exact nonce_elem_ne v _ (by decide) h5
      · cases dev with
        | false => simp at h2
        | true =>
          have h5 : ("'nonce-" ++ v ++ "'" : String) = "'unsafe-inline'" := by
            simpa using h2
          exact nonce_elem_ne v _ (by decide) h5
    · rw [hss]
      cases dev <;> decide
    · rw [hss]
      cases dev <;> decide
  · have hss : scriptSources nonce dev = staticScriptSources ++
        (if dev then ["'unsafe-eval'"] else []) ++
        ["'nonce-" ++ w ++ "'", "'strict-dynamic'"] := by
      unfold scriptSources
      rw [hof]
    refine ⟨rfl, ?_, ?_, ?_, ?_, ?_, ?_⟩
    · rw [hss]
      exact List.mem_append.mpr (Or.inl (List.mem_append.mpr (Or.inl (by decide))))
    · rw [hss]
      refine iff_of_true (List.mem_append.mpr (Or.inr ?_)) (by simp)
      exact List.mem_cons_of_mem _ (List.mem_cons_self _ _)
    · intro v hv
      have hw : w = v := Option.some_inj.mp hv
      subst hw
      rw [hss]
      exact List.mem_append.mpr (Or.inr (List.mem_cons_self _ _))
    · intro v hv
      rw [hss] at hv
      rcases List.mem_append.mp hv with h1 | h2
      · exfalso
        rcases List.mem_append.mp h1 with h3 | h4
        · exact nonce_not_in_static v h3
        · cases dev with
          | false => simp at h4
          | true =>
            have h5 : ("'nonce-" ++ v ++ "'" : String) = "'unsafe-eval'" := by
              simpa using h4
            exact nonce_elem_ne v _ (by decide) h5
      · rcases List.mem_cons.mp h2 with h3 | h4
        · rw [nonce_elem_inj v w h3]
        · exfalso
          have h5 : ("'nonce-" ++ v ++ "'" : String) = "'strict-dynamic'" := by
            simpa using h4
          exact nonce_elem_ne v _ (by decide) h5
    · rw [hss]
      refine iff_of_false ?_ (by simp)
      intro hm
      rcases List.mem_append.mp hm with h1 | h2
      · rcases List.mem_append.mp h1 with h3 | h4
        · revert h3; decide
        · cases dev with
          | false => simp at h4
          | true => revert h4; decide
      · rcases List.mem_cons.mp h2 with h3 | h4
        · exact nonce_elem_ne w _ (by decide) h3.symm
        · revert h4; decide
    · rw [hss]
      cases dev with
      | true =>
        exact iff_of_true (List.mem_append.mpr (Or.inl (List.mem_append.mpr
          (Or.inr (by decide))))) rfl
      | false =>
        refine iff_of_false ?_ (by simp)
        intro hm
        rcases List.mem_append.mp hm with h1 | h2
        · rcases List.mem_append.mp h1 with h3 | h4
          · revert h3; decide
          · simp at h4
        · rcases List.mem_cons.mp h2 with h3 | h4
          · exact nonce_elem_ne w _ (by decide) h3.symm
          · revert h4; decide

theorem b64Sextets_lt (bs : List Nat) (hb : ∀ b ∈ bs, b < 256) :
    ∀ s ∈ b64Sextets bs, s < 64 := by
  induction bs using list3Induction with
  | h0 => simp [b64Sextets]
  | h1 a =>
    intro s hs
    have ha := hb a (by simp)
    simp only [b64Sextets, List.mem_cons, List.not_mem_nil, or_false] at hs
    rcases hs with h | h <;> omega
  | h2 a b =>
    intro s hs
    have ha := hb a (by simp)
    have hbb := hb b (by simp)
    simp only [b64Sextets, List.mem_cons, List.not_mem_nil, or_false] at hs
    rcases hs with h | h | h <;> omega
  | h3 a b c r ih =>
    intro s hs
    have ha := hb a (by simp)
    have hbb := hb b (by simp)
    have hc := hb c (by simp)
    simp only [b64Sextets, List.mem_cons] at hs
    rcases hs with h | h | h | h | h
    · omega
    · omega
    · omega
    · omega
    · exact ih (fun x hx => hb x (by simp [hx])) s h

theorem b64Sextets_length (bs : List Nat) : bs.length ≤ (b64Sextets bs).length := by
  induction bs using list3Induction with
  | h0 => simp [b64Sextets]
  | h1 a => simp [b64Sextets]
  | h2 a b => simp [b64Sextets]
  | h3 a b c r ih =>
    simp only [b64Sextets, List.length_cons]
    omega

theorem b64urlChar_urlSafe : ∀ s < 64, isUrlSafeChar (b64urlChar s) = true ∧
    b64urlChar s ≠ '+' ∧ b64urlChar s ≠ '/' ∧ b64urlChar s ≠ '=' := by
  decide

theorem b64urlChar_inj : ∀ a < 64, ∀ b < 64, b64urlChar a = b64urlChar b → a = b := by
  decide

theorem take_len_append : ∀ (l m : List Nat), (l ++ m).take l.length = l := by
  intro l m
  induction l with
  | nil => simp
  | cons a r ih => simp [List.take_succ_cons, ih]

/-- The first `4k+3` base64 sextets determine the first `3k+2` bytes. -/
theorem b64Sextets_take_det : ∀ (k : Nat) (xs ys : List Nat),
    (∀ b ∈ xs, b < 256) → (∀ b ∈ ys, b < 256) → xs.length = ys.length →
    3 * k + 3 ≤ xs.length →
    (b64Sextets xs).take (4 * k + 3) = (b64Sextets ys).take (4 * k + 3) →
    xs.take (3 * k + 2) = ys.take (3 * k + 2) := by
  intro k
  induction k with
  | zero =>
    intro xs ys hx hy hlen hge h
    rcases xs with _ | ⟨a, xs⟩
    · simp at hge
    rcases xs with _ | ⟨b, xs⟩
    · simp at hge
    rcases xs with _ | ⟨c, r⟩
    · simp at hge
    rcases ys with _ | ⟨a2, ys⟩
    · simp at hlen
    rcases ys with _ | ⟨b2, ys⟩
    · simp at hlen
    rcases ys with _ | ⟨c2, r2⟩
    · simp at hlen
    have h2 : [a / 4, (a % 4) * 16 + b / 16, (b % 16) * 4 + c / 64] =
        [a2 / 4, (a2 % 4) * 16 + b2 / 16, (b2 % 16) * 4 + c2 / 64] := h
    simp only [List.cons.injEq, and_true] at h2
    obtain ⟨e1, e2, e3⟩ := h2
    have ha := hx a (by simp)
    have hbb := hx b (by simp)
    have ha2 := hy a2 (by simp)
    have hb2 := hy b2 (by simp)
    have hc := hx c (by simp)
    have hc2 := hy c2 (by simp)
    have hab : a = a2 ∧ b = b2 := by omega
    show [a, b] = [a2, b2]
    rw [hab.1, hab.2]
  | succ k ih =>
    intro xs ys hx hy hlen hge h
    rcases xs with _ | ⟨a, xs⟩
    · simp at hge
    rcases xs with _ | ⟨b, xs⟩
    · simp at hge
    rcases xs with _ | ⟨c, r⟩
    · simp at hge
    rcases ys with _ | ⟨a2, ys⟩
    · simp at hlen
    rcases ys with _ | ⟨b2, ys⟩
    · simp at hlen
    rcases ys with _ | ⟨c2, r2⟩
    · simp at hlen
    have e : 4 * (k + 1) + 3 = (4 * k + 3) + 1 + 1 + 1 + 1 := by ring
    rw [e] at h
    simp only [b64Sextets, List.take_succ_cons] at h
    simp only [List.cons.injEq] at h
    obtain ⟨e0, e1, e2, e3, erest⟩ := h
    have ha := hx a (by simp)
    have hbb := hx b (by simp)
    have hc := hx c (by simp)
    have ha2 := hy a2 (by simp)
    have hb2 := hy b2 (by simp)
    have hc2 := hy c2 (by simp)
    have habc : a = a2 ∧ b = b2 ∧ c = c2 := by omega
    have hlen2 : r.length = r2.length := by
      simp only [List.length_cons] at hlen
      omega
    have hge2 : 3 * k + 3 ≤ r.length := by
      simp only [List.length_cons] at hge
      omega
    have hr := ih r r2 (fun x hxm => hx x (by simp [hxm]))
      (fun x hxm => hy x (by simp [hxm])) hlen2 hge2 erest
    have e4 : 3 * (k + 1) + 2 = (3 * k + 2) + 1 + 1 + 1 := by ring
    rw [e4]
    simp only [List.take_succ_cons]
    rw [habc.1, habc.2.1, habc.2.2, hr]

/-- C9: for every pair of dash-stripped UUID hex strings consumed from the
random source, `CSRFProtection.generateToken` returns a string of exactly
43 characters, all from the URL-safe base64 alphabet `[A-Za-z0-9_-]`, with
no `+`, `/` or `=` characters. -/
theorem generateToken_shape (u1 u2 : List Nat) (h1 : u1.length = 32)
    (h2 : u2.length = 32) (hb1 : ∀ b ∈ u1, b < 256) (hb2 : ∀ b ∈ u2, b < 256) :
    (generateToken u1 u2).length = 43 ∧
    ∀ c ∈ (generateToken u1 u2).data,
      isUrlSafeChar c = true ∧ c ≠ '+' ∧ c ≠ '/' ∧ c ≠ '=' := by
  have hball : ∀ b ∈ u1 ++ u2, b < 256 := by
    intro b hbm
    rcases List.mem_append.mp hbm with h | h
    exacts [hb1 b h, hb2 b h]
  have hslen : 43 ≤ (b64Sextets (u1 ++ u2)).length := by
    have hl := b64Sextets_length (u1 ++ u2)
    have : (u1 ++ u2).length = 64 := by simp [h1, h2]
    omega
  constructor
  · show (((b64Sextets (u1 ++ u2)).take 43).map b64urlChar).length = 43
    rw [List.length_map, List.length_take]
    omega
  · intro c hc
    have hc2 : c ∈ ((b64Sextets (u1 ++ u2)).take 43).map b64urlChar := hc
    obtain ⟨s, hs, rfl⟩ := List.mem_map.mp hc2
    exact b64urlChar_urlSafe s (b64Sextets_lt _ hball s (List.take_subset _ _ hs))

/-- Witness for C9 at a concrete pair of UUID hex strings. -/
theorem generateToken_shape_witness :
    (uuidHexA.length = 32 ∧ uuidHexB.length = 32) ∧
    (generateToken uuidHexA uuidHexB).length = 43 :=
  ⟨⟨by decide, by decide⟩,
   (generateToken_shape uuidHexA uuidHexB (by decide) (by decide)
      (by decide) (by decide)).1⟩

/-- C2 (counterexample): two distinct pairs of consumed UUIDs — differing in
the last hex digit of the second UUID — produce the same token, so the map
from the consumed random values to the output is not injective over the
full domain of both UUIDs, and in particular not over 2^256 equally likely
values. -/
theorem generateToken_not_injective :
    generateToken uuidHexA uuidHexA = generateToken uuidHexA uuidHexB ∧
    uuidHexA ≠ uuidHexB := by
  decide

/-- C2 (amended): `CSRFProtection.generateToken` is injective in the first
UUID consumed — a domain of 2^122 equally likely values — although the
43-character output discards all but the leading bits of the second UUID. -/
theorem generateToken_inj_first_uuid (u1 v1 u2 : List Nat)
    (h1 : u1.length = 32) (h1v : v1.length = 32) (h2 : u2.length = 32)
    (hb1 : ∀ b ∈ u1, b < 256) (hb1v : ∀ b ∈ v1, b < 256)
    (hb2 : ∀ b ∈ u2, b < 256)
    (h : generateToken u1 u2 = generateToken v1 u2) : u1 = v1 := by
  have hd : ((b64Sextets (u1 ++ u2)).take 43).map b64urlChar =
      ((b64Sextets (v1 ++ u2)).take 43).map b64urlChar := congrArg String.data h
  have hx : ∀ b ∈ u1 ++ u2, b < 256 := by
    intro b hbm
    rcases List.mem_append.mp hbm with hm | hm
    exacts [hb1 b hm, hb2 b hm]
  have hxv : ∀ b ∈ v1 ++ u2, b < 256 := by
    intro b hbm
    rcases List.mem_append.mp hbm with hm | hm
    exacts [hb1v b hm, hb2 b hm]
  have hs : (b64Sextets (u1 ++ u2)).take 43 = (b64Sextets (v1 ++ u2)).take 43 :=
    map_cancel_of_bound_inj b64urlChar_inj _ _
      (fun x hxm => b64Sextets_lt _ hx x (List.take_subset _ _ hxm))
      (fun x hxm => b64Sextets_lt _ hxv x (List.take_subset _ _ hxm)) hd
  have htake : (u1 ++ u2).take 32 = (v1 ++ u2).take 32 :=
    b64Sextets_take_det 10 (u1 ++ u2) (v1 ++ u2) hx hxv
      (by simp [h1, h1v]) (by simp [h1, h2]) hs
  have e1 : (u1 ++ u2).take 32 = u1 := by
    rw [show (32 : Nat) = u1.length from h1.symm]
    exact take_len_append u1 u2
  have e2 : (v1 ++ u2).take 32 = v1 := by
    rw [show (32 : Nat) = v1.length from h1v.symm]
    exact take_len_append v1 u2
  rw [← e1, ← e2]
  exact htake

/-- Witness for the amended C2 injectivity at a concrete pair of UUIDs. -/
theorem generateToken_inj_first_uuid_witness :
    generateToken uuidHexA uuidHexB = generateToken uuidHexA uuidHexB ∧
    uuidHexA = uuidHexA :=
  ⟨rfl, generateToken_inj_first_uuid uuidHexA uuidHexA uuidHexB
    (by decide) (by decide) (by decide) (by decide) (by decide) (by decide) rfl⟩

/-- Witness for C5 at concrete nonce and environment values. -/
theorem buildScriptSrc_spec_witness :
    ("'nonce-" ++ "abc" ++ "'" : String) ∈ scriptSources (some "abc") false ∧
    "'unsafe-eval'" ∈ scriptSources (some "abc") true ∧
    "'self'" ∈ scriptSources none true :=
  ⟨(buildScriptSrc_spec (some "abc") false).2.2.2.1 "abc" (by decide),
   ((buildScriptSrc_spec (some "abc") true).2.2.2.2.2.2).mpr rfl,
   (buildScriptSrc_spec none true).2.1⟩
